import Mathlib

/-
Verification of the class-name computation and property-filtering pipeline of
react-styled-classnames, src/create/createReactElement.ts.

The render function produced by createReactElement is embedded shallowly:
JavaScript property records become association lists from property names to
JSValue, the for-in filtering loop becomes List.filter, and the class-name
merge `[computedClassName, incomingClassName].filter(Boolean).join(" ").trim()`
becomes the corresponding String operations.
-/

namespace ReactStyledClassnames

/-- A JavaScript runtime value, as far as the pipeline inspects one: the code
only ever tests truthiness and stringifies, so a small universe suffices. -/
inductive JSValue where
  | str (s : String)
  | num (n : Int)
  | boolean (b : Bool)
  | null
  | undefined
deriving Repr, DecidableEq

/-- JavaScript truthiness, as tested by `filter(Boolean)` and by `||`. -/
def truthy : JSValue → Bool
  | .str s => s != ""
  | .num n => n != 0
  | .boolean b => b
  | .null => false
  | .undefined => false

/-- JavaScript stringification as performed by `Array.prototype.join`. -/
def jsToString : JSValue → String
  | .str s => s
  | .num n => toString n
  | .boolean true => "true"
  | .boolean false => "false"
  | .null => "null"
  | .undefined => "undefined"

/-- JavaScript `String.prototype.startsWith`: the first argument begins with
the second. Stated on the underlying character lists so it is executable. -/
def jsStartsWith (s pre : String) : Bool :=
  pre.data.isPrefixOf s.data

/-- JavaScript `String.prototype.trim`: whitespace stripped from both ends. -/
def jsTrim (s : String) : String :=
  ⟨((s.data.dropWhile Char.isWhitespace).reverse.dropWhile Char.isWhitespace).reverse⟩

/-- A properties record: named values in insertion (for-in) order. -/
abbrev Props := List (String × JSValue)

/-- Property access `obj[k]` / `obj.k`: first binding of the key, if any. -/
def getProp (props : Props) (k : String) : Option JSValue :=
  (props.find? (fun kv => kv.1 == k)).map (fun kv => kv.2)

/-- The for-in loop of createReactElement building `domProps`: keep a property
unless its name starts with "$" or is listed in `propsToFilter`. -/
def filterDomProps (propsToFilter : List String) (props : Props) : Props :=
  props.filter (fun kv => !(jsStartsWith kv.1 "$") && !(propsToFilter.contains kv.1))

/-- The read `domProps.className || ""`: the className binding of the filtered
record if truthy, otherwise the empty string. -/
def incomingClassName (domProps : Props) : JSValue :=
  match getProp domProps "className" with
  | some v => if truthy v then v else .str ""
  | none => .str ""

/-- The merge `[computedClassName, incomingClassName].filter(Boolean).join(" ").trim()`. -/
def finalClassName (computedClassName : String) (incoming : JSValue) : String :=
  jsTrim (String.intercalate " "
    (([JSValue.str computedClassName, incoming].filter truthy).map jsToString))

/-- The element instantiation handed to createElement: a tag and its props. -/
structure Element where
  tag : String
  props : Props
deriving Repr, DecidableEq

/-- The object literal spread with override, modelled lookup-equivalently:
earlier bindings of the overridden keys are dropped and the overriding
bindings appended, so every key maps to the same value as in the literal. -/
def elementProps (domProps : Props) (final : String) (ref : JSValue) : Props :=
  (domProps.filter (fun kv => kv.1 != "className" && kv.1 != "ref"))
    ++ [("className", .str final), ("ref", ref)]

/-- Body of the forwardRef render callback, after the computed class name has
been obtained: filter the props, merge the class names, build the element. -/
def renderBody (tag : String) (computedClassName : String)
    (propsToFilter : List String) (props : Props) (ref : JSValue) : Element :=
  let domProps := filterDomProps propsToFilter props
  let incoming := incomingClassName domProps
  let final := finalClassName computedClassName incoming
  ⟨tag, elementProps domProps final ref⟩

/-- createReactElement: returns the forwardRef render function. The first
statement of the callback applies computeClassName to the full props record. -/
def createReactElement (tag : String) (computeClassName : Props → String)
    (propsToFilter : List String) : Props → JSValue → Element :=
  fun props ref => renderBody tag (computeClassName props) propsToFilter props ref

/-- createReactElement for a compute function that may throw: the exception
surfaces before anything else in the callback runs, so the render result is
either the unmodified exception or the ordinary element. -/
def createReactElementE {ε : Type} (tag : String)
    (computeClassName : Props → Except ε String)
    (propsToFilter : List String) : Props → JSValue → Except ε Element :=
  fun props ref =>
    (computeClassName props).map (fun c => renderBody tag c propsToFilter props ref)

/-- Specification-side formula, written from the spec's words (section 4.2):
trim(join([resolverOutput, callerSuppliedClassName], " ")) with empty parts
skipped. It is compared against the code's merge in the claims below. -/
def specMergedClassName (resolverOutput callerSupplied : String) : String :=
  jsTrim (String.intercalate " " ([resolverOutput, callerSupplied].filter (fun s => s != "")))

/-- The key list of a properties record. -/
def keys (l : Props) : List String := l.map Prod.fst

/- Helper lemmas about lookups through filtering and appending. -/

theorem getProp_filter_of_key_kept (p : String × JSValue → Bool) (l : Props) (k : String)
    (hp : ∀ v, p (k, v) = true) :
    getProp (l.filter p) k = getProp l k := by
  induction l with
  | nil => rfl
  | cons a t ih =>
    unfold getProp at ih ⊢
    cases hpa : p a with
    | true =>
      rw [List.filter_cons_of_pos hpa, List.find?_cons, List.find?_cons]
      cases hbeq : (a.1 == k) with
      | true => simp only [hbeq]
      | false => simp only [hbeq]; exact ih
    | false =>
      have hak : (a.1 == k) = false := by
        by_contra hne
        simp only [Bool.not_eq_false] at hne
        have h := hp a.2
        rw [show (k, a.2) = a by rw [← eq_of_beq hne]] at h
        rw [hpa] at h
        exact Bool.false_ne_true h
      rw [List.filter_cons_of_neg (by simp [hpa]), List.find?_cons]
      simp only [hak]
      exact ih

theorem getProp_filterDomProps (ptf : List String) (props : Props) (k : String)
    (h1 : jsStartsWith k "$" = false) (h2 : k ∉ ptf) :
    getProp (filterDomProps ptf props) k = getProp props k := by
  unfold filterDomProps
  exact getProp_filter_of_key_kept _ _ _ (fun v => by simp [h1, h2])

theorem getProp_filterDomProps_none_of_dollar (ptf : List String) (props : Props) (k : String)
    (h : jsStartsWith k "$" = true) :
    getProp (filterDomProps ptf props) k = none := by
  unfold getProp
  rw [List.find?_eq_none.mpr, Option.map_none']
  intro kv hkv hbeq
  have hm := (List.mem_filter.mp hkv).2
  rw [eq_of_beq hbeq] at hm
  simp [h] at hm

theorem getProp_filterDomProps_none_of_listed (ptf : List String) (props : Props) (k : String)
    (h : k ∈ ptf) :
    getProp (filterDomProps ptf props) k = none := by
  unfold getProp
  rw [List.find?_eq_none.mpr, Option.map_none']
  intro kv hkv hbeq
  have hm := (List.mem_filter.mp hkv).2
  rw [eq_of_beq hbeq] at hm
  simp [h] at hm

theorem getProp_elementProps_className (dp : Props) (final : String) (ref : JSValue) :
    getProp (elementProps dp final ref) "className" = some (.str final) := by
  unfold elementProps getProp
  rw [List.find?_append, List.find?_eq_none.mpr, Option.none_or]
  · rfl
  · intro kv hkv
    have := (List.mem_filter.mp hkv).2
    simp only [Bool.and_eq_true, bne_iff_ne] at this
    simp [this.1]

theorem getProp_elementProps_ref (dp : Props) (final : String) (ref : JSValue) :
    getProp (elementProps dp final ref) "ref" = some ref := by
  unfold elementProps getProp
  rw [List.find?_append, List.find?_eq_none.mpr, Option.none_or]
  · rfl
  · intro kv hkv
    have := (List.mem_filter.mp hkv).2
    simp only [Bool.and_eq_true, bne_iff_ne] at this
    simp [this.2]

theorem getProp_elementProps_other (dp : Props) (final : String) (ref : JSValue) (k : String)
    (h1 : k ≠ "className") (h2 : k ≠ "ref") :
    getProp (elementProps dp final ref) k = getProp dp k := by
  have hc : ("className" == k) = false := beq_eq_false_iff_ne.mpr (Ne.symm h1)
  have hr : ("ref" == k) = false := beq_eq_false_iff_ne.mpr (Ne.symm h2)
  have h3 := getProp_filter_of_key_kept
    (fun kv => kv.1 != "className" && kv.1 != "ref") dp k (fun v => by simp [h1, h2])
  unfold elementProps
  rw [← h3]
  unfold getProp
  rw [List.find?_append]
  have htail : List.find? (fun kv => kv.1 == k)
      [("className", JSValue.str final), ("ref", ref)] = none := by
    simp [List.find?, hc, hr]
  rw [htail, Option.or_none]

theorem mem_keys_filterDomProps (ptf : List String) (props : Props) (k : String) :
    k ∈ keys (filterDomProps ptf props)
      ↔ k ∈ keys props ∧ jsStartsWith k "$" = false ∧ k ∉ ptf := by
  unfold keys filterDomProps
  constructor
  · rintro hk
    obtain ⟨kv, hkv, hfst⟩ := List.mem_map.mp hk
    obtain ⟨hmem, hpred⟩ := List.mem_filter.mp hkv
    subst hfst
    simp only [Bool.and_eq_true, Bool.not_eq_true'] at hpred
    refine ⟨List.mem_map.mpr ⟨kv, hmem, rfl⟩, hpred.1, ?_⟩
    intro hin
    have := hpred.2
    simp [hin] at this
  · rintro ⟨hk, h1, h2⟩
    obtain ⟨kv, hmem, hfst⟩ := List.mem_map.mp hk
    subst hfst
    exact List.mem_map.mpr ⟨kv, List.mem_filter.mpr ⟨hmem, by simp [h1, h2]⟩, rfl⟩

theorem className_of_renderBody (tag c : String) (ptf : List String)
    (props : Props) (ref : JSValue) :
    getProp (renderBody tag c ptf props ref).props "className"
      = some (.str (finalClassName c (incomingClassName (filterDomProps ptf props)))) := by
  unfold renderBody
  exact getProp_elementProps_className _ _ _

theorem ref_of_renderBody (tag c : String) (ptf : List String)
    (props : Props) (ref : JSValue) :
    getProp (renderBody tag c ptf props ref).props "ref" = some ref := by
  unfold renderBody
  exact getProp_elementProps_ref _ _ _

theorem finalClassName_str (c s : String) :
    finalClassName c (.str s) = specMergedClassName c s := by
  unfold finalClassName specMergedClassName
  cases hc : c != "" <;> cases hs : s != "" <;>
    simp [List.filter, truthy, jsToString, hc, hs]

theorem incomingClassName_eq_of_getProp_str (dp : Props) (s : String)
    (h : getProp dp "className" = some (.str s)) :
    incomingClassName dp = .str (if s != "" then s else "") := by
  unfold incomingClassName
  rw [h]
  by_cases hs : s = "" <;> simp [hs, truthy]

theorem incomingClassName_eq_of_getProp_none (dp : Props)
    (h : getProp dp "className" = none) :
    incomingClassName dp = .str "" := by
  unfold incomingClassName
  rw [h]

theorem finalClassName_incoming (c : String) (dp : Props) (C : String)
    (h : getProp dp "className" = some (.str C) ∨ (getProp dp "className" = none ∧ C = "")) :
    finalClassName c (incomingClassName dp) = specMergedClassName c C := by
  rcases h with h | ⟨h, hC⟩
  · rw [incomingClassName_eq_of_getProp_str dp C h]
    cases hs : C != "" with
    | true => rw [if_pos rfl, finalClassName_str]
    | false =>
      have hC : C = "" := by simpa using hs
      rw [if_neg (by simp [hs]), finalClassName_str, hC]
  · rw [incomingClassName_eq_of_getProp_none dp h, finalClassName_str, hC]

theorem finalClassName_empty_incoming (c : String) :
    finalClassName c (.str "") = jsTrim c := by
  rw [finalClassName_str]
  unfold specMergedClassName
  cases hc : c != "" with
  | true =>
    simp only [List.filter, hc, bne_self_eq_false]
    rfl
  | false =>
    have hc' : c = "" := by simpa using hc
    subst hc'
    rfl

theorem mem_keys_elementProps (dp : Props) (final : String) (ref : JSValue) (k : String) :
    k ∈ keys (elementProps dp final ref)
      ↔ (k ∈ keys dp ∧ k ≠ "className" ∧ k ≠ "ref") ∨ k = "className" ∨ k = "ref" := by
  unfold elementProps keys
  rw [List.map_append, List.mem_append]
  constructor
  · rintro (hk | hk)
    · obtain ⟨kv, hkv, hfst⟩ := List.mem_map.mp hk
      obtain ⟨hmem, hpred⟩ := List.mem_filter.mp hkv
      subst hfst
      simp only [Bool.and_eq_true, bne_iff_ne] at hpred
      exact Or.inl ⟨List.mem_map.mpr ⟨kv, hmem, rfl⟩, hpred.1, hpred.2⟩
    · simp only [List.map_cons, List.map_nil, List.mem_cons,
        List.not_mem_nil, or_false] at hk
      exact Or.inr hk
  · rintro (⟨hk, h1, h2⟩ | h | h)
    · obtain ⟨kv, hmem, hfst⟩ := List.mem_map.mp hk
      subst hfst
      exact Or.inl (List.mem_map.mpr
        ⟨kv, List.mem_filter.mpr ⟨hmem, by simp [h1, h2]⟩, rfl⟩)
    · subst h
      exact Or.inr (List.mem_map.mpr ⟨("className", .str final), by simp, rfl⟩)
    · subst h
      exact Or.inr (List.mem_map.mpr ⟨("ref", ref), by simp, rfl⟩)

theorem className_of_createReactElement (tag : String) (f : Props → String)
    (ptf : List String) (props : Props) (ref : JSValue) :
    getProp (createReactElement tag f ptf props ref).props "className"
      = some (.str (finalClassName (f props) (incomingClassName (filterDomProps ptf props)))) :=
  className_of_renderBody tag (f props) ptf props ref

theorem ref_of_createReactElement (tag : String) (f : Props → String)
    (ptf : List String) (props : Props) (ref : JSValue) :
    getProp (createReactElement tag f ptf props ref).props "ref" = some ref :=
  ref_of_renderBody tag (f props) ptf props ref

theorem specMergedClassName_of_nonempty (a c : String) (ha : a ≠ "") (hc : c ≠ "") :
    specMergedClassName a c = jsTrim (a ++ " " ++ c) := by
  unfold specMergedClassName
  have ha2 : (a != "") = true := bne_iff_ne.mpr ha
  have hc2 : (c != "") = true := bne_iff_ne.mpr hc
  simp only [List.filter, ha2, hc2]
  rfl

/-- C1: the className handed to the underlying element is
trim(join([f(P), C], " ")) with empty parts skipped, where C is the
caller-supplied className; when C is empty the result is the merge of f(P)
alone, and when both parts are nonempty the caller's tokens are appended
after the computed tokens by plain concatenation, never reordered. -/
theorem claim1_className_merge (tag : String) (f : Props → String) (ptf : List String)
    (props : Props) (ref : JSValue) (C : String)
    (hptf : "className" ∉ ptf)
    (hC : getProp props "className" = some (.str C)
        ∨ (getProp props "className" = none ∧ C = "")) :
    getProp (createReactElement tag f ptf props ref).props "className"
        = some (.str (specMergedClassName (f props) C))
    ∧ (C = "" →
        getProp (createReactElement tag f ptf props ref).props "className"
          = some (.str (specMergedClassName (f props) "")))
    ∧ (f props ≠ "" → C ≠ "" →
        getProp (createReactElement tag f ptf props ref).props "className"
          = some (.str (jsTrim (f props ++ " " ++ C)))) := by
  have hdp : getProp (filterDomProps ptf props) "className" = getProp props "className" :=
    getProp_filterDomProps ptf props "className" (by decide) hptf
  have hC2 : getProp (filterDomProps ptf props) "className" = some (.str C)
      ∨ (getProp (filterDomProps ptf props) "className" = none ∧ C = "") := by
    rw [hdp]; exact hC
  have hmain : getProp (createReactElement tag f ptf props ref).props "className"
      = some (.str (specMergedClassName (f props) C)) := by
    rw [className_of_createReactElement tag f ptf props ref,
      finalClassName_incoming (f props) _ C hC2]
  refine ⟨hmain, fun hCe => ?_, fun h1 h2 => ?_⟩
  · rw [hmain, hCe]
  · rw [hmain, specMergedClassName_of_nonempty (f props) C h1 h2]

theorem claim1_className_merge_witness :
    getProp (createReactElement "div" (fun _ => "text-lg mt-5 bg-blue") []
        [("className", JSValue.str "extra")] .null).props "className"
      = some (.str (specMergedClassName "text-lg mt-5 bg-blue" "extra"))
    ∧ specMergedClassName "text-lg mt-5 bg-blue" "extra" = "text-lg mt-5 bg-blue extra" :=
  ⟨(claim1_className_merge "div" (fun _ => "text-lg mt-5 bg-blue") []
      [("className", JSValue.str "extra")] .null "extra"
      (by decide) (Or.inl (by decide))).1,
   by decide⟩

/-- C2: a property name present in the input is omitted from the pass-through
properties exactly when it starts with "$" or is listed in propsToFilter, and
a "$"-prefixed name never survives the filter for any propsToFilter list. -/
theorem claim2_internal_prop_filtering (ptf : List String) (props : Props) (k : String) :
    (k ∈ keys props →
      (k ∉ keys (filterDomProps ptf props)
        ↔ (jsStartsWith k "$" = true ∨ k ∈ ptf)))
    ∧ (jsStartsWith k "$" = true →
        ∀ ptf2 : List String, k ∉ keys (filterDomProps ptf2 props)) := by
  constructor
  · intro hk
    rw [not_iff_comm, mem_keys_filterDomProps]
    constructor
    · intro hno
      refine ⟨hk, ?_, ?_⟩
      · cases hsw : jsStartsWith k "$" with
        | true => exact absurd (Or.inl hsw) hno
        | false => rfl
      · intro hin
        exact hno (Or.inr hin)
    · rintro ⟨_, h1, h2⟩ (hs | hin)
      · rw [h1] at hs
        exact Bool.false_ne_true hs
      · exact h2 hin
  · intro hs ptf2 hmem
    rw [mem_keys_filterDomProps] at hmem
    rw [hmem.2.1] at hs
    exact Bool.false_ne_true hs

theorem claim2_internal_prop_filtering_witness :
    "$a" ∉ keys (filterDomProps ["hidden"]
        [("$a", JSValue.num 1), ("hidden", JSValue.str "h"), ("id", JSValue.str "x")])
    ∧ ("hidden" ∉ keys (filterDomProps ["hidden"]
          [("$a", JSValue.num 1), ("hidden", JSValue.str "h"), ("id", JSValue.str "x")])
        ↔ (jsStartsWith "hidden" "$" = true ∨ "hidden" ∈ ["hidden"])) :=
  ⟨(claim2_internal_prop_filtering ["hidden"]
      [("$a", JSValue.num 1), ("hidden", JSValue.str "h"), ("id", JSValue.str "x")]
      "$a").2 (by decide) ["hidden"],
   (claim2_internal_prop_filtering ["hidden"]
      [("$a", JSValue.num 1), ("hidden", JSValue.str "h"), ("id", JSValue.str "x")]
      "hidden").1 (by decide)⟩

/-- C3: rendering is a pure function of its inputs: two renders of the same
component with equal property records produce the same element, hence the
same final className and the same forwarded property set. -/
theorem claim3_render_deterministic (tag : String) (f : Props → String)
    (ptf : List String) (P₁ P₂ : Props) (ref : JSValue) (h : P₁ = P₂) :
    createReactElement tag f ptf P₁ ref = createReactElement tag f ptf P₂ ref
    ∧ getProp (createReactElement tag f ptf P₁ ref).props "className"
        = getProp (createReactElement tag f ptf P₂ ref).props "className" := by
  subst h
  exact ⟨rfl, rfl⟩

theorem claim3_render_deterministic_witness :
    createReactElement "div" (fun _ => "x") [] [("id", JSValue.str "1")] .null
      = createReactElement "div" (fun _ => "x") [] [("id", JSValue.str "1")] .null :=
  (claim3_render_deterministic "div" (fun _ => "x") [] [("id", JSValue.str "1")]
    [("id", JSValue.str "1")] .null rfl).1

/-- C4: when the compute function throws, the render call propagates that
same exception unmodified: the result is the error itself, so no element is
produced and nothing is substituted in its place. -/
theorem claim4_compute_exception_propagates {ε : Type} (tag : String)
    (f : Props → Except ε String) (ptf : List String) (props : Props)
    (ref : JSValue) (e : ε) (h : f props = .error e) :
    createReactElementE tag f ptf props ref = .error e := by
  unfold createReactElementE
  rw [h]
  rfl

theorem claim4_compute_exception_propagates_witness :
    createReactElementE "div" (fun _ => Except.error "boom") [] [] JSValue.null
      = Except.error "boom" :=
  claim4_compute_exception_propagates "div" (fun _ => Except.error "boom")
    [] [] JSValue.null "boom" rfl

/-- C5: the property record handed to the underlying element agrees with the
pass-through record on every key other than className and ref, maps className
to the merged class string and ref to the forwarded ref, and has exactly the
pass-through keys (minus className and ref) plus className and ref. -/
theorem claim5_forwarded_props_frame (tag : String) (f : Props → String)
    (ptf : List String) (props : Props) (ref : JSValue) :
    (∀ k : String, k ≠ "className" → k ≠ "ref" →
      getProp (createReactElement tag f ptf props ref).props k
        = getProp (filterDomProps ptf props) k)
    ∧ getProp (createReactElement tag f ptf props ref).props "className"
        = some (.str (finalClassName (f props) (incomingClassName (filterDomProps ptf props))))
    ∧ getProp (createReactElement tag f ptf props ref).props "ref" = some ref
    ∧ (∀ k : String, k ∈ keys (createReactElement tag f ptf props ref).props
        ↔ ((k ∈ keys (filterDomProps ptf props) ∧ k ≠ "className" ∧ k ≠ "ref")
            ∨ k = "className" ∨ k = "ref")) := by
  refine ⟨fun k h1 h2 => ?_,
    className_of_createReactElement tag f ptf props ref,
    ref_of_createReactElement tag f ptf props ref,
    fun k => ?_⟩
  · exact getProp_elementProps_other (filterDomProps ptf props) _ ref k h1 h2
  · exact mem_keys_elementProps (filterDomProps ptf props) _ ref k

theorem claim5_forwarded_props_frame_witness :
    getProp (createReactElement "div" (fun _ => "p-4") ["hidden"]
        [("id", JSValue.str "x"), ("hidden", JSValue.str "h")] .null).props "id"
      = getProp (filterDomProps ["hidden"]
          [("id", JSValue.str "x"), ("hidden", JSValue.str "h")]) "id"
    ∧ getProp (createReactElement "div" (fun _ => "p-4") ["hidden"]
        [("id", JSValue.str "x"), ("hidden", JSValue.str "h")] .null).props "ref"
      = some JSValue.null :=
  ⟨(claim5_forwarded_props_frame "div" (fun _ => "p-4") ["hidden"]
      [("id", JSValue.str "x"), ("hidden", JSValue.str "h")] .null).1
      "id" (by decide) (by decide),
   (claim5_forwarded_props_frame "div" (fun _ => "p-4") ["hidden"]
      [("id", JSValue.str "x"), ("hidden", JSValue.str "h")] .null).2.2.1⟩

/-- C6: the ref received by the wrapper is attached to the underlying
element on every render, for every possible ref value, including the null
and undefined values React passes when the caller supplied no ref. -/
theorem claim6_ref_forwarding (tag : String) (f : Props → String)
    (ptf : List String) (props : Props) (ref : JSValue) :
    getProp (createReactElement tag f ptf props ref).props "ref" = some ref :=
  ref_of_createReactElement tag f ptf props ref

/-- C7: the compute function is applied to the full incoming property record,
not to the filtered pass-through subset: the merged className is built from
f applied to the unfiltered props, and there are a compute function and a
record on which the full and the filtered records give different outputs. -/
theorem claim7_compute_receives_full_props (tag : String) (f : Props → String)
    (ptf : List String) (props : Props) (ref : JSValue) :
    getProp (createReactElement tag f ptf props ref).props "className"
      = some (.str (finalClassName (f props) (incomingClassName (filterDomProps ptf props))))
    ∧ ∃ g : Props → String, ∃ P : Props, ∃ l : List String,
        g P ≠ g (filterDomProps l P) := by
  refine ⟨className_of_createReactElement tag f ptf props ref, ?_⟩
  refine ⟨fun p => if getProp p "$active" = some (.boolean true) then "bg-blue" else "bg-red",
    [("$active", JSValue.boolean true)], [], ?_⟩
  decide

/-- C8 counterexample: with a static fragment "p-4" and a property named
$count not listed in propsToFilter, the rendered element does not receive
$count among its properties, contradicting the claim that it appears among
the forwarded pass-through properties. -/
theorem claim8_dollar_count_cex :
    getProp (createReactElement "div" (fun _ => "p-4") []
        [("$count", JSValue.num 3), ("id", JSValue.str "x")] .null).props "$count" = none
    ∧ "$count" ∉ keys (filterDomProps []
        [("$count", JSValue.num 3), ("id", JSValue.str "x")]) := by
  decide

/-- C8 amended: a property named $count is always filtered from the
forwarded properties, whatever propsToFilter holds, because its name starts
with "$"; it remains available to the compute function, which receives the
full property record, as the concrete $count-reading render shows. -/
theorem claim8_dollar_count_internal (tag : String) (f : Props → String)
    (ptf : List String) (props : Props) (ref : JSValue) :
    getProp (createReactElement tag f ptf props ref).props "$count" = none
    ∧ getProp (createReactElement tag f ptf props ref).props "className"
        = some (.str (finalClassName (f props) (incomingClassName (filterDomProps ptf props))))
    ∧ getProp (createReactElement "div"
        (fun p => if getProp p "$count" = some (.num 3) then "p-4 third" else "p-4")
        [] [("$count", JSValue.num 3)] .null).props "className"
      = some (.str "p-4 third") := by
  refine ⟨?_, className_of_createReactElement tag f ptf props ref, by decide⟩
  show getProp (elementProps (filterDomProps ptf props)
    (finalClassName (f props) (incomingClassName (filterDomProps ptf props))) ref)
    "$count" = none
  rw [getProp_elementProps_other (filterDomProps ptf props) _ ref "$count"
    (by decide) (by decide)]
  exact getProp_filterDomProps_none_of_dollar ptf props "$count" (by decide)

/-- C9: the underlying element always receives a className property: it is
bound to the merged string on every render, and when the computed string is
empty and the incoming className is empty or absent it is bound to "". -/
theorem claim9_className_always_present (tag : String) (f : Props → String)
    (ptf : List String) (props : Props) (ref : JSValue) :
    (∃ s : String, getProp (createReactElement tag f ptf props ref).props "className"
        = some (.str s))
    ∧ (f props = "" → incomingClassName (filterDomProps ptf props) = .str "" →
        getProp (createReactElement tag f ptf props ref).props "className"
          = some (.str "")) := by
  refine ⟨⟨_, className_of_createReactElement tag f ptf props ref⟩, fun h1 h2 => ?_⟩
  rw [className_of_createReactElement tag f ptf props ref, h1, h2,
    finalClassName_empty_incoming]
  rfl

theorem claim9_className_always_present_witness :
    getProp (createReactElement "div" (fun _ => "") []
        [("id", JSValue.str "x")] .null).props "className" = some (.str "") :=
  (claim9_className_always_present "div" (fun _ => "") []
    [("id", JSValue.str "x")] .null).2 rfl (by decide)

/-- C10 counterexample: with "className" listed in propsToFilter and a
compute function returning " a", the final class string is "a": the caller's
"extra" is discarded, but the result is the trimmed computed string, not the
computed string " a" itself as the claim states. -/
theorem claim10_filtered_className_cex :
    getProp (createReactElement "div" (fun _ => " a") ["className"]
        [("className", JSValue.str "extra")] .null).props "className"
      = some (.str "a")
    ∧ ("a" : String) ≠ " a" ∧ ("a" : String) ≠ "extra" := by
  decide

/-- C10 amended: when "className" is listed in propsToFilter the caller's
className contributes nothing: the final class string is the trim of the
computed class string alone, independent of the caller's value. -/
theorem claim10_filtered_className_discarded (tag : String) (f : Props → String)
    (ptf : List String) (props : Props) (ref : JSValue)
    (h : "className" ∈ ptf) :
    getProp (createReactElement tag f ptf props ref).props "className"
      = some (.str (jsTrim (f props))) := by
  rw [className_of_createReactElement tag f ptf props ref,
    incomingClassName_eq_of_getProp_none _
      (getProp_filterDomProps_none_of_listed ptf props _ h),
    finalClassName_empty_incoming]

theorem claim10_filtered_className_discarded_witness :
    getProp (createReactElement "div" (fun _ => "p-4") ["className"]
        [("className", JSValue.str "extra")] .null).props "className"
      = some (.str (jsTrim "p-4"))
    ∧ jsTrim "p-4" = "p-4" :=
  ⟨claim10_filtered_className_discarded "div" (fun _ => "p-4") ["className"]
      [("className", JSValue.str "extra")] .null (by decide),
   by decide⟩

end ReactStyledClassnames
